import Mathlib

/-!
# Verification of the Notion ↔ Google Calendar reconciliation engine

Shallow embedding of `src/sync_main.py` (`process_sync_row`, `main`'s per-task
loop) and of the relevant parts of `src/module/google_cal_api.py`
(`create_event`, `update_event`, `get_event`) from the
`notion_task_notificator` repository.

Modelling choices:
* Calendar dates are `Date` records (year/month/day); Python's
  `datetime.date.isoformat` becomes `Date.toIso` and
  `datetime.datetime.strptime(s, "%Y-%m-%d")` becomes `parseIsoDate`
  (returning `none` where `strptime` raises `ValueError`).
* Timestamps (`last_edited_time`, the event's `updated`) are `Int` instants on
  a common UTC scale; `datetime.datetime.min` becomes the constant `tsMin`.
* The two stores are oracles in an `Env`; the engine produces the list of
  store calls it makes (`Call`, with each mutation's success bit as decided by
  the oracle) together with an `Outcome` that records whether the Python
  function returned normally or let an exception propagate to its caller.
* The Google event dict is `GEvent`; absent keys are `none` and the engine
  applies the source's defaults (`.get("summary", "")`, `updated` defaulting
  to `datetime.min`) at its use sites, as the source does.
-/

/-- A calendar date, the model of Python `datetime.date` values. -/
structure Date where
  year : Nat
  month : Nat
  day : Nat
deriving DecidableEq

/-- Gregorian leap-year rule used by `datetime.date` validation. -/
def isLeap (y : Nat) : Bool := (y % 4 == 0 && y % 100 != 0) || (y % 400 == 0)

/-- Number of days of month `m` in year `y` (the bound `datetime.date` enforces). -/
def daysInMonth (y m : Nat) : Nat :=
  if m == 2 then (if isLeap y then 29 else 28)
  else if m == 4 || m == 6 || m == 9 || m == 11 then 30
  else 31

/-- The dates representable as Python `datetime.date` values
(`MINYEAR = 1`, `MAXYEAR = 9999`, day within the month). -/
def Date.Valid (d : Date) : Prop :=
  1 ≤ d.year ∧ d.year ≤ 9999 ∧ 1 ≤ d.month ∧ d.month ≤ 12 ∧
    1 ≤ d.day ∧ d.day ≤ daysInMonth d.year d.month

instance (d : Date) : Decidable d.Valid := by
  unfold Date.Valid; infer_instance

/-- ASCII digit character for `n % 10`. -/
def digitChar (n : Nat) : Char :=
  match n with
  | 0 => '0' | 1 => '1' | 2 => '2' | 3 => '3' | 4 => '4'
  | 5 => '5' | 6 => '6' | 7 => '7' | 8 => '8' | _ => '9'

/-- Two-digit zero-padded decimal rendering (month/day part of `isoformat`). -/
def pad2Chars (n : Nat) : List Char := [digitChar (n / 10 % 10), digitChar (n % 10)]

/-- Four-digit zero-padded decimal rendering (year part of `isoformat`). -/
def pad4Chars (n : Nat) : List Char :=
  [digitChar (n / 1000 % 10), digitChar (n / 100 % 10), digitChar (n / 10 % 10), digitChar (n % 10)]

/-- `datetime.date.isoformat`: the canonical `YYYY-MM-DD` rendering. -/
def Date.toIso (d : Date) : String :=
  ⟨pad4Chars d.year ++ '-' :: pad2Chars d.month ++ '-' :: pad2Chars d.day⟩

/-- Split a character list on `'-'` separators (the shape analysis done by
`strptime` against the pattern `"%Y-%m-%d"`). -/
def splitOnDash : List Char → List (List Char)
  | [] => [[]]
  | c :: rest =>
    if c = '-' then [] :: splitOnDash rest
    else
      match splitOnDash rest with
      | [] => [[c]]
      | h :: t => (c :: h) :: t

/-- ASCII decimal digit test (`\d` as matched by `strptime`). -/
def isDigitChar (c : Char) : Bool := 48 ≤ c.toNat && c.toNat ≤ 57

/-- All characters are ASCII digits. -/
def allDigits (cs : List Char) : Bool := cs.all isDigitChar

/-- Decimal value of a digit string. -/
def digitsVal (cs : List Char) : Nat := cs.foldl (fun n c => n * 10 + (c.toNat - 48)) 0

/-- Model of `datetime.datetime.strptime(s, "%Y-%m-%d").date()`:
`%Y` is exactly four digits, `%m` and `%d` one or two digits, and the
resulting components must form a representable `datetime.date`; any failure
(`ValueError` in Python) is `none`. -/
def parseIsoDate (s : String) : Option Date :=
  match splitOnDash s.toList with
  | [ys, ms, ds] =>
    if ys.length = 4 ∧ allDigits ys = true ∧
        1 ≤ ms.length ∧ ms.length ≤ 2 ∧ allDigits ms = true ∧
        1 ≤ ds.length ∧ ds.length ≤ 2 ∧ allDigits ds = true then
      if 1 ≤ digitsVal ys ∧ 1 ≤ digitsVal ms ∧ digitsVal ms ≤ 12 ∧ 1 ≤ digitsVal ds ∧
          digitsVal ds ≤ daysInMonth (digitsVal ys) (digitsVal ms) then
        some ⟨digitsVal ys, digitsVal ms, digitsVal ds⟩
      else none
    else none
  | _ => none

/-- Model of `datetime.datetime.min.replace(tzinfo=datetime.timezone.utc)`
(0001-01-01T00:00:00Z) as seconds relative to the Unix epoch; used by
`process_sync_row` as the default for an event with no `updated` field. -/
def tsMin : Int := -62135596800

/-- A Google Calendar event as seen by `process_sync_row` after
`gcal.get_event`: the `summary`, `start.date` and `updated` entries of the
returned dict, each absent (`none`) when the dict lacks the key.
`start.date` is kept as its raw `YYYY-MM-DD` string, as in the dict. -/
structure GEvent where
  summary : Option String
  start : Option String
  updated : Option Int
deriving DecidableEq

/-- A task row of `TaskDB.pd_items` as consumed by `process_sync_row`
(`src/module/notion_api.py`, `TaskDB._process_raw_to_dict`): `project` is `""`
when the task has no project relation, `gcal_event_id` is `None` when the
`GCal_Event_ID` rich-text is empty, and `last_edited_time` (an ISO timestamp
Notion always supplies well-formed) is modelled already parsed, as the instant
`last_edited`. -/
structure TaskRow where
  id : String
  title : String
  work_date : Option Date
  status : String
  project : String
  gcal_event_id : Option String
  last_edited : Int
deriving DecidableEq

/-- The two partial page updates `process_sync_row` sends through
`tasks_db.update_page`: writing the `GCal_Event_ID` rich-text, and writing the
`作業日` (work date) property with `date.isoformat()` of the given date. -/
inductive PageUpdate where
  | setGcalEventId (eventId : String)
  | setWorkDate (d : Date)
deriving DecidableEq

/-- One store call issued by the engine, with the result the store gave:
`createEvent`'s `result` is the new event id (`none` when `events().insert`
raised), and the `ok` bit of the mutations records whether the underlying
request succeeded (`false` models the call raising). A `fetchEvent` is
`gcal.get_event`, which never raises (it catches every exception). -/
inductive Call where
  | fetchEvent (eventId : String)
  | createEvent (title : String) (date : Date) (result : Option String)
  | updateEvent (eventId : String) (title : String) (date : Option Date) (ok : Bool)
  | updatePage (pageId : String) (upd : PageUpdate) (ok : Bool)
deriving DecidableEq

/-- Whether `process_sync_row` returned normally or let an exception escape to
`main`'s pass-level handler. -/
inductive Outcome where
  | normal
  | raised
deriving DecidableEq

/-- The behaviour of the two external stores during one task's processing:
`getEvent` is the collapsed result of `gcal.get_event` (`none` for not-found
or any error), `createEvent` yields the id `events().insert` returns (`none`
when it raises), and the `…Ok` oracles say whether each mutation request
succeeds. `today` is `datetime.date.today()`. -/
structure Env where
  getEvent : String → Option GEvent
  createEvent : String → Date → Option String
  updateEventOk : String → String → Option Date → Bool
  updatePageOk : String → PageUpdate → Bool
  today : Date

/-- Python truthiness of the optional `gcal_event_id` string: `not
gcal_event_id` holds for `None` and for `""`. -/
def strFalsy : Option String → Bool
  | none => true
  | some s => s == ""

/-- `gcal_title.startswith("【中止】")`. -/
def listStartsWith : List Char → List Char → Bool
  | [], _ => true
  | _ :: _, [] => false
  | a :: as, b :: bs => a == b && listStartsWith as bs

/-- The cancellation marker `"【中止】"`. -/
def cancelMark : String := "【中止】"

/-- `gcal_title.startswith("【中止】")` (Python `str.startswith`). -/
def startsWithCancel (s : String) : Bool := listStartsWith cancelMark.toList s.toList

/-- `display_title = f"{task_title}【{row.project}】" if row.project else task_title`. -/
def displayTitle (row : TaskRow) : String :=
  if row.project = "" then row.title else row.title ++ "【" ++ row.project ++ "】"

/-- `is_canceled = (work_date is None) or (status == "保留中")`. -/
def TaskRow.isCanceled (row : TaskRow) : Bool :=
  row.work_date.isNone || row.status == "保留中"

/-- `target_title = f"【中止】{display_title}" if is_canceled else display_title`. -/
def targetTitle (row : TaskRow) : String :=
  if row.isCanceled then cancelMark ++ displayTitle row else displayTitle row

/-- `gcal_title = gcal_event.get("summary", "")`. -/
def GEvent.titleOrEmpty (ev : GEvent) : String := ev.summary.getD ""

/-- `gcal_updated`: parse of the `updated` field, defaulting to
`datetime.min` when absent. -/
def GEvent.updatedTs (ev : GEvent) : Int := ev.updated.getD tsMin

/-- The engine's date extraction for the event (lines 126–129 of
`sync_main.py`): `none` when `strptime` raises on a malformed `start.date`
string, otherwise `some gcal_date` with `gcal_date = none` when the event has
no `start.date`. -/
def GEvent.parsedDate (ev : GEvent) : Option (Option Date) :=
  match ev.start with
  | none => some none
  | some s => (parseIsoDate s).map some

/-- An attempted `gcal.update_event(eid, title, d)`: the call plus the outcome
of the surrounding code, which has no try/except, so a failing request raises
out of `process_sync_row`. -/
def mkUpdateEvent (env : Env) (eid title : String) (d : Option Date) : List Call × Outcome :=
  ([Call.updateEvent eid title d (env.updateEventOk eid title d)],
    if env.updateEventOk eid title d then Outcome.normal else Outcome.raised)

/-- An attempted `tasks_db.update_page(pid, u)` in the comparison branch
(line 157), likewise unguarded. -/
def mkUpdatePage (env : Env) (pid : String) (u : PageUpdate) : List Call × Outcome :=
  ([Call.updatePage pid u (env.updatePageOk pid u)],
    if env.updatePageOk pid u then Outcome.normal else Outcome.raised)

/-- Lines 131–160 of `sync_main.py`: the comparison logic once the mirrored
event has been fetched and its fields extracted. `gDate` is the parsed
`gcal_date`. The produced calls exclude the initial fetch, which the caller
prepends. -/
def syncCompare (env : Env) (row : TaskRow) (eid : String) (gTitle : String)
    (gUpdated : Int) (gDate : Option Date) : List Call × Outcome :=
  if gTitle = targetTitle row ∧ gDate = row.work_date then
    ([], Outcome.normal)
  else if row.isCanceled then
    if ¬ startsWithCancel gTitle = true ∨ gTitle ≠ targetTitle row then
      mkUpdateEvent env eid (targetTitle row) (some (gDate.getD env.today))
    else ([], Outcome.normal)
  else if gUpdated < row.last_edited then
    mkUpdateEvent env eid (targetTitle row) row.work_date
  else if row.last_edited < gUpdated then
    match gDate with
    | some gd =>
      if some gd ≠ row.work_date then mkUpdatePage env row.id (PageUpdate.setWorkDate gd)
      else mkUpdateEvent env eid (targetTitle row) row.work_date
    | none => mkUpdateEvent env eid (targetTitle row) row.work_date
  else ([], Outcome.normal)

/-- Lines 101–107 of `sync_main.py`: the guarded creation path. Both the
`create_event` call and the id write-back sit in one `try`, so any failure is
caught and logged and the function returns normally. -/
def createBranch (env : Env) (row : TaskRow) (wd : Date) : List Call × Outcome :=
  match env.createEvent (targetTitle row) wd with
  | none => ([Call.createEvent (targetTitle row) wd none], Outcome.normal)
  | some newId =>
    ([Call.createEvent (targetTitle row) wd (some newId),
      Call.updatePage row.id (PageUpdate.setGcalEventId newId)
        (env.updatePageOk row.id (PageUpdate.setGcalEventId newId))],
      Outcome.normal)

/-- Shallow embedding of `process_sync_row` (`src/sync_main.py`, lines
61–160): the sequence of store calls made for one task row, and whether the
Python function returned normally or let an exception propagate. -/
def process_sync_row (env : Env) (row : TaskRow) : List Call × Outcome :=
  if strFalsy row.gcal_event_id then
    if row.isCanceled then ([], Outcome.normal)
    else
      match row.work_date with
      | none => ([], Outcome.normal)
      | some wd => createBranch env row wd
  else
    match env.getEvent (row.gcal_event_id.getD "") with
    | none => ([Call.fetchEvent (row.gcal_event_id.getD "")], Outcome.normal)
    | some ev =>
      match ev.parsedDate with
      | none => ([Call.fetchEvent (row.gcal_event_id.getD "")], Outcome.raised)
      | some gDate =>
        let r := syncCompare env row (row.gcal_event_id.getD "") ev.titleOrEmpty ev.updatedTs gDate
        (Call.fetchEvent (row.gcal_event_id.getD "") :: r.1, r.2)

/-- The per-task loop of `main` (lines 49–56): rows are processed in order
inside one `try`, so the first task whose processing raises ends the loop (the
exception is caught only by the pass-level handler); later rows are skipped.
Returns the traces of the rows that were processed. -/
def runPass (env : Env) (rows : List TaskRow) : List (List Call) :=
  match rows with
  | [] => []
  | r :: rest =>
    match process_sync_row env r with
    | (tr, Outcome.normal) => tr :: runPass env rest
    | (tr, Outcome.raised) => [tr]

/-- The three outcomes the underlying
`service.events().get(...).execute()` can have in
`GoogleCalendarAPI.get_event`. -/
inductive FetchRaw where
  | found (ev : GEvent)
  | notFound
  | transportError
deriving DecidableEq

/-- `GoogleCalendarAPI.get_event` (`src/module/google_cal_api.py`, lines
102–115): returns the event dict, and `None` on *any* exception — a genuine
not-found and a transport/store error are collapsed to the same result. -/
def get_event (raw : FetchRaw) : Option GEvent :=
  match raw with
  | FetchRaw.found ev => some ev
  | FetchRaw.notFound => none
  | FetchRaw.transportError => none

/-- An environment whose event fetches go through `get_event` over the given
raw per-id service behaviour. -/
def envOfRaw (raw : String → FetchRaw) (base : Env) : Env :=
  { base with getEvent := fun e => get_event (raw e) }

/-- Store mutations (everything except a fetch). -/
def isMutation : Call → Bool
  | Call.fetchEvent _ => false
  | _ => true

/-- The corrective actions in a trace: its store mutations. -/
def mutations (tr : List Call) : List Call := tr.filter isMutation

/-- The state of the pair of stores restricted to one task: the task row the
next pass would read, and the event store as an association list from event id
to event. -/
structure SyncState where
  task : TaskRow
  events : List (String × GEvent)
deriving DecidableEq

/-- Event-store lookup by id. -/
def findEvent : List (String × GEvent) → String → Option GEvent
  | [], _ => none
  | p :: ps, eid => if p.1 == eid then some p.2 else findEvent ps eid

/-- `update_event`'s effect on an event dict
(`GoogleCalendarAPI.update_event`): the patch always rewrites `summary`, and
rewrites `start.date` with `isoformat` of the new date when one is given. -/
def patchEvent (ev : GEvent) (title : String) (d : Option Date) : GEvent :=
  match d with
  | some dd => { ev with summary := some title, start := some dd.toIso }
  | none => { ev with summary := some title }

/-- How a successful store call changes the two stores; failed calls persist
nothing. A created event carries the title and date `create_event` sent
(`GoogleCalendarAPI.create_event`); its server-assigned `updated` stamp is not
modelled (`none`), and no theorem below depends on it. -/
def applyCall (st : SyncState) : Call → SyncState
  | Call.fetchEvent _ => st
  | Call.createEvent title date res =>
    match res with
    | some eid => { st with events := st.events ++ [(eid, ⟨some title, some date.toIso, none⟩)] }
    | none => st
  | Call.updateEvent eid title d ok =>
    if ok then
      { st with events := st.events.map (fun p => if p.1 == eid then (p.1, patchEvent p.2 title d) else p) }
    else st
  | Call.updatePage pid upd ok =>
    if ok && pid == st.task.id then
      match upd with
      | PageUpdate.setGcalEventId e => { st with task := { st.task with gcal_event_id := some e } }
      | PageUpdate.setWorkDate d => { st with task := { st.task with work_date := some d } }
    else st

/-- Apply a whole trace left to right. -/
def applyTrace (st : SyncState) (tr : List Call) : SyncState := tr.foldl applyCall st

/-- Run the engine on the state's task against the given environment and
persist its successful calls. -/
def runStateEnv (env : Env) (st : SyncState) : SyncState :=
  applyTrace st (process_sync_row env st.task).1

/-- The environment of an undisturbed run: fetches answer from the state's
event store, creation succeeds with the fresh id `fid`, and every mutation
request succeeds. -/
def pureEnv (st : SyncState) (today : Date) (fid : String) : Env :=
  { getEvent := fun eid => findEvent st.events eid
    createEvent := fun _ _ => some fid
    updateEventOk := fun _ _ _ => true
    updatePageOk := fun _ _ => true
    today := today }

/-- The trace of one undisturbed engine run on a state. -/
def runTrace (today : Date) (fid : String) (st : SyncState) : List Call :=
  (process_sync_row (pureEnv st today fid) st.task).1

/-- One undisturbed engine run followed by persisting its effects. -/
def stepState (today : Date) (fid : String) (st : SyncState) : SyncState :=
  applyTrace st (runTrace today fid st)

/-! Concrete store behaviours and task rows used to instantiate the theorems
below on closed inputs. -/

def dateA : Date := ⟨2025, 3, 10⟩

def dateB : Date := ⟨2025, 3, 11⟩

/-- An event whose `updated` stamp (200) is newer than the fixture tasks'
`last_edited` (100), titled differently from every fixture target title. -/
def evStale : GEvent := { summary := some "stale", start := some "2025-03-11", updated := some 200 }

/-- Both stores answer and every request succeeds; `"e1"` resolves to
`evStale`, creation returns `"ev1"`. -/
def envFetchStale : Env :=
  { getEvent := fun e => if e = "e1" then some evStale else none
    createEvent := fun _ _ => some "ev1"
    updateEventOk := fun _ _ _ => true
    updatePageOk := fun _ _ => true
    today := dateA }

/-- Every fetch finds nothing; creation returns `"ev1"`; every mutation
request succeeds. -/
def envAllOk : Env :=
  { getEvent := fun _ => none
    createEvent := fun _ _ => some "ev1"
    updateEventOk := fun _ _ _ => true
    updatePageOk := fun _ _ => true
    today := dateA }

/-- `"e1"` resolves to `evStale` but every mutation request fails. -/
def envUpdateFails : Env :=
  { getEvent := fun e => if e = "e1" then some evStale else none
    createEvent := fun _ _ => some "ev1"
    updateEventOk := fun _ _ _ => false
    updatePageOk := fun _ _ => false
    today := dateA }

/-- Creation succeeds with `"ev1"` but the id write-back request fails. -/
def envPageFails : Env :=
  { getEvent := fun _ => none
    createEvent := fun _ _ => some "ev1"
    updateEventOk := fun _ _ _ => true
    updatePageOk := fun _ _ => false
    today := dateA }

def rowOnHold : TaskRow :=
  { id := "t7", title := "task7", work_date := some dateA, status := "保留中",
    project := "", gcal_event_id := none, last_edited := 100 }

def rowMirroredA : TaskRow :=
  { id := "t1", title := "task1", work_date := some dateA, status := "進行中",
    project := "", gcal_event_id := some "e1", last_edited := 100 }

/-- Like `rowMirroredA` but edited after `evStale`'s `updated` stamp. -/
def rowMirrNewer : TaskRow :=
  { id := "t1", title := "task1", work_date := some dateA, status := "進行中",
    project := "", gcal_event_id := some "e1", last_edited := 300 }

def rowOnHoldMirrored : TaskRow :=
  { id := "t2", title := "task2", work_date := some dateA, status := "保留中",
    project := "", gcal_event_id := some "e1", last_edited := 100 }

def rowUnmirrored : TaskRow :=
  { id := "t3", title := "task3", work_date := some dateA, status := "進行中",
    project := "Ops", gcal_event_id := none, last_edited := 100 }

def stUnmirrored : SyncState := { task := rowUnmirrored, events := [] }

/-- Fixture for the two-pass convergence analysis: a non-canceled mirrored
task whose event is newer and diverges in both title and date. -/
def rowC5 : TaskRow :=
  { id := "t5", title := "task5", work_date := some dateA, status := "進行中",
    project := "", gcal_event_id := some "e1", last_edited := 100 }

def stC5 : SyncState := { task := rowC5, events := [("e1", evStale)] }

/-- A raw service behaviour where every event id is genuinely absent. -/
def rawNotFound : String → FetchRaw := fun _ => FetchRaw.notFound

/-- A raw service behaviour where every fetch fails with a transport error. -/
def rawTransportError : String → FetchRaw := fun _ => FetchRaw.transportError

theorem digitChar_toNat (k : Nat) (h : k < 10) : (digitChar k).toNat = 48 + k := by
  interval_cases k <;> rfl

theorem digitChar_isDigit (k : Nat) (h : k < 10) : isDigitChar (digitChar k) = true := by
  interval_cases k <;> rfl

theorem digitChar_ne_dash (k : Nat) : digitChar k ≠ '-' := by
  unfold digitChar; split <;> decide

theorem dash_not_mem_pad4 (n : Nat) : '-' ∉ pad4Chars n := by
  simp only [pad4Chars, List.mem_cons, List.not_mem_nil, or_false]
  push_neg
  exact ⟨(digitChar_ne_dash _).symm, (digitChar_ne_dash _).symm,
    (digitChar_ne_dash _).symm, (digitChar_ne_dash _).symm⟩

theorem dash_not_mem_pad2 (n : Nat) : '-' ∉ pad2Chars n := by
  simp only [pad2Chars, List.mem_cons, List.not_mem_nil, or_false]
  push_neg
  exact ⟨(digitChar_ne_dash _).symm, (digitChar_ne_dash _).symm⟩

theorem allDigits_pad4 (n : Nat) : allDigits (pad4Chars n) = true := by
  simp only [allDigits, pad4Chars, List.all_cons, List.all_nil, Bool.and_eq_true, and_true]
  refine ⟨digitChar_isDigit _ ?_, digitChar_isDigit _ ?_, digitChar_isDigit _ ?_,
    digitChar_isDigit _ ?_⟩ <;> omega

theorem allDigits_pad2 (n : Nat) : allDigits (pad2Chars n) = true := by
  simp only [allDigits, pad2Chars, List.all_cons, List.all_nil, Bool.and_eq_true, and_true]
  exact ⟨digitChar_isDigit _ (by omega), digitChar_isDigit _ (by omega)⟩

theorem daysInMonth_le (y m : Nat) : daysInMonth y m ≤ 31 := by
  unfold daysInMonth
  split
  · split <;> omega
  · split <;> omega

theorem splitOnDash_no_dash (a : List Char) (h : '-' ∉ a) : splitOnDash a = [a] := by
  induction a with
  | nil => rfl
  | cons c rest ih =>
    have hc : ¬ (c = '-') := fun hc => h (hc ▸ List.mem_cons_self c rest)
    have hr : '-' ∉ rest := fun hm => h (List.mem_cons_of_mem _ hm)
    simp only [splitOnDash, if_neg hc, ih hr]

theorem splitOnDash_append (a r : List Char) (h : '-' ∉ a) :
    splitOnDash (a ++ '-' :: r) = a :: splitOnDash r := by
  induction a with
  | nil => simp [splitOnDash]
  | cons c rest ih =>
    have hc : ¬ (c = '-') := fun hc => h (hc ▸ List.mem_cons_self c rest)
    have hr : '-' ∉ rest := fun hm => h (List.mem_cons_of_mem _ hm)
    simp only [List.cons_append, splitOnDash, if_neg hc, List.append_eq, ih hr]

theorem digitsVal_pad4 (n : Nat) (h : n ≤ 9999) : digitsVal (pad4Chars n) = n := by
  have h1 := digitChar_toNat (n / 1000 % 10) (Nat.mod_lt _ (by omega))
  have h2 := digitChar_toNat (n / 100 % 10) (Nat.mod_lt _ (by omega))
  have h3 := digitChar_toNat (n / 10 % 10) (Nat.mod_lt _ (by omega))
  have h4 := digitChar_toNat (n % 10) (Nat.mod_lt _ (by omega))
  simp only [digitsVal, pad4Chars, List.foldl, h1, h2, h3, h4]
  omega

theorem digitsVal_pad2 (n : Nat) (h : n ≤ 99) : digitsVal (pad2Chars n) = n := by
  have h1 := digitChar_toNat (n / 10 % 10) (Nat.mod_lt _ (by omega))
  have h2 := digitChar_toNat (n % 10) (Nat.mod_lt _ (by omega))
  simp only [digitsVal, pad2Chars, List.foldl, h1, h2]
  omega

theorem digitsVal_aux_lt (cs : List Char) (acc : Nat) (h : allDigits cs = true) :
    List.foldl (fun n c => n * 10 + (c.toNat - 48)) acc cs < (acc + 1) * 10 ^ cs.length := by
  induction cs generalizing acc with
  | nil => simp
  | cons c cs ih =>
    simp only [allDigits, List.all_cons, Bool.and_eq_true] at h
    have hd : c.toNat - 48 ≤ 9 := by
      have hc := h.1
      simp only [isDigitChar, Bool.and_eq_true, decide_eq_true_eq] at hc
      omega
    have hrec := ih (acc * 10 + (c.toNat - 48)) h.2
    have hle : (acc * 10 + (c.toNat - 48) + 1) * 10 ^ cs.length ≤ (acc + 1) * 10 ^ (cs.length + 1) := by
      have : acc * 10 + (c.toNat - 48) + 1 ≤ (acc + 1) * 10 := by omega
      calc (acc * 10 + (c.toNat - 48) + 1) * 10 ^ cs.length
          ≤ (acc + 1) * 10 * 10 ^ cs.length := Nat.mul_le_mul_right _ this
        _ = (acc + 1) * 10 ^ (cs.length + 1) := by rw [Nat.pow_succ]; ring
    simp only [List.foldl, List.length_cons]
    exact lt_of_lt_of_le hrec hle

theorem digitsVal_lt (cs : List Char) (h : allDigits cs = true) :
    digitsVal cs < 10 ^ cs.length := by
  have := digitsVal_aux_lt cs 0 h
  simpa [digitsVal] using this

/-- Dates produced by a successful `strptime` are representable
`datetime.date` values. -/
theorem parseIsoDate_valid (s : String) (d : Date) (h : parseIsoDate s = some d) :
    d.Valid := by
  unfold parseIsoDate at h
  split at h
  case h_2 => exact absurd h (by simp)
  case h_1 ys ms ds heq =>
    split at h
    case isFalse => exact absurd h (by simp)
    case isTrue hcond =>
      split at h
      case isFalse => exact absurd h (by simp)
      case isTrue hval =>
        obtain ⟨hy4, hyd, _⟩ := hcond
        have hbound := digitsVal_lt ys hyd
        rw [hy4] at hbound
        norm_num at hbound
        injection h with h
        subst h
        exact ⟨hval.1, show digitsVal ys ≤ 9999 by omega, hval.2.1, hval.2.2.1,
          hval.2.2.2.1, hval.2.2.2.2⟩

/-- Round trip: `strptime` inverts `isoformat` on every representable date. -/
theorem parseIsoDate_toIso (d : Date) (h : d.Valid) : parseIsoDate d.toIso = some d := by
  obtain ⟨h1, h2, h3, h4, h5, h6⟩ := h
  have htl : d.toIso.toList
      = pad4Chars d.year ++ '-' :: (pad2Chars d.month ++ '-' :: pad2Chars d.day) := rfl
  have hs1 : splitOnDash (pad4Chars d.year ++ '-' :: (pad2Chars d.month ++ '-' :: pad2Chars d.day))
      = [pad4Chars d.year, pad2Chars d.month, pad2Chars d.day] := by
    rw [splitOnDash_append _ _ (dash_not_mem_pad4 _),
      splitOnDash_append _ _ (dash_not_mem_pad2 _),
      splitOnDash_no_dash _ (dash_not_mem_pad2 _)]
  have hdm := daysInMonth_le d.year d.month
  have hy := digitsVal_pad4 d.year (by omega)
  have hm := digitsVal_pad2 d.month (by omega)
  have hd := digitsVal_pad2 d.day (by omega)
  have hlen4 : (pad4Chars d.year).length = 4 := rfl
  have hlen2m : (pad2Chars d.month).length = 2 := rfl
  have hlen2d : (pad2Chars d.day).length = 2 := rfl
  unfold parseIsoDate
  rw [htl, hs1]
  show (if (pad4Chars d.year).length = 4 ∧ allDigits (pad4Chars d.year) = true ∧
      1 ≤ (pad2Chars d.month).length ∧ (pad2Chars d.month).length ≤ 2 ∧
      allDigits (pad2Chars d.month) = true ∧ 1 ≤ (pad2Chars d.day).length ∧
      (pad2Chars d.day).length ≤ 2 ∧ allDigits (pad2Chars d.day) = true then
    (if 1 ≤ digitsVal (pad4Chars d.year) ∧ 1 ≤ digitsVal (pad2Chars d.month) ∧
        digitsVal (pad2Chars d.month) ≤ 12 ∧ 1 ≤ digitsVal (pad2Chars d.day) ∧
        digitsVal (pad2Chars d.day) ≤
          daysInMonth (digitsVal (pad4Chars d.year)) (digitsVal (pad2Chars d.month)) then
      some ⟨digitsVal (pad4Chars d.year), digitsVal (pad2Chars d.month), digitsVal (pad2Chars d.day)⟩
    else none)
    else none) = some d
  rw [if_pos ⟨hlen4, allDigits_pad4 _, by omega, by omega, allDigits_pad2 _,
    by omega, by omega, allDigits_pad2 _⟩]
  rw [hy, hm, hd, if_pos ⟨h1, h3, h4, h5, h6⟩]


theorem strFalsy_false_iff (o : Option String) : strFalsy o = false ↔ ∃ s, o = some s ∧ s ≠ "" := by
  cases o with
  | none => simp [strFalsy]
  | some s => simp [strFalsy]

theorem process_sync_row_mirror (env : Env) (row : TaskRow) (eid : String)
    (hm : row.gcal_event_id = some eid) (he : eid ≠ "") :
    process_sync_row env row =
      match env.getEvent eid with
      | none => ([Call.fetchEvent eid], Outcome.normal)
      | some ev =>
        match ev.parsedDate with
        | none => ([Call.fetchEvent eid], Outcome.raised)
        | some gDate =>
          (Call.fetchEvent eid :: (syncCompare env row eid ev.titleOrEmpty ev.updatedTs gDate).1,
            (syncCompare env row eid ev.titleOrEmpty ev.updatedTs gDate).2) := by
  have hsf : strFalsy row.gcal_event_id = false := by rw [hm]; simp [strFalsy, he]
  unfold process_sync_row
  rw [hsf, hm]
  simp

theorem process_sync_row_fetch_none (env : Env) (row : TaskRow) (eid : String)
    (hm : row.gcal_event_id = some eid) (he : eid ≠ "") (hf : env.getEvent eid = none) :
    process_sync_row env row = ([Call.fetchEvent eid], Outcome.normal) := by
  rw [process_sync_row_mirror env row eid hm he, hf]

theorem process_sync_row_malformed (env : Env) (row : TaskRow) (eid : String) (ev : GEvent)
    (hm : row.gcal_event_id = some eid) (he : eid ≠ "") (hf : env.getEvent eid = some ev)
    (hp : ev.parsedDate = none) :
    process_sync_row env row = ([Call.fetchEvent eid], Outcome.raised) := by
  have hsf : strFalsy row.gcal_event_id = false := by rw [hm]; simp [strFalsy, he]
  unfold process_sync_row
  rw [hsf, hm]
  simp [hf, hp]

theorem process_sync_row_fetched (env : Env) (row : TaskRow) (eid : String) (ev : GEvent)
    (gd : Option Date)
    (hm : row.gcal_event_id = some eid) (he : eid ≠ "") (hf : env.getEvent eid = some ev)
    (hp : ev.parsedDate = some gd) :
    process_sync_row env row
      = (Call.fetchEvent eid :: (syncCompare env row eid ev.titleOrEmpty ev.updatedTs gd).1,
        (syncCompare env row eid ev.titleOrEmpty ev.updatedTs gd).2) := by
  have hsf : strFalsy row.gcal_event_id = false := by rw [hm]; simp [strFalsy, he]
  unfold process_sync_row
  rw [hsf, hm]
  simp [hf, hp]

theorem process_sync_row_create (env : Env) (row : TaskRow) (wd : Date)
    (hm : strFalsy row.gcal_event_id = true) (hc : row.isCanceled = false)
    (hw : row.work_date = some wd) :
    process_sync_row env row = createBranch env row wd := by
  unfold process_sync_row
  rw [hm, hc, hw]
  simp

theorem syncCompare_shape (env : Env) (row : TaskRow) (eid gt : String) (gu : Int)
    (gd : Option Date) :
    syncCompare env row eid gt gu gd = ([], Outcome.normal)
    ∨ (∃ d, syncCompare env row eid gt gu gd = mkUpdateEvent env eid (targetTitle row) d)
    ∨ (∃ d2, syncCompare env row eid gt gu gd = mkUpdatePage env row.id (PageUpdate.setWorkDate d2)) := by
  unfold syncCompare
  rcases gd with _ | gd
  · dsimp only
    split_ifs <;> first
      | (left; rfl)
      | (right; left; exact ⟨_, rfl⟩)
  · dsimp only
    split_ifs <;> first
      | (left; rfl)
      | (right; left; exact ⟨_, rfl⟩)
      | (right; right; exact ⟨_, rfl⟩)

theorem syncCompare_no_setgid (env : Env) (row : TaskRow) (eid gt : String) (gu : Int)
    (gd : Option Date) (pid e : String) (ok : Bool) :
    Call.updatePage pid (PageUpdate.setGcalEventId e) ok ∉ (syncCompare env row eid gt gu gd).1 := by
  rcases syncCompare_shape env row eid gt gu gd with h | ⟨d, h⟩ | ⟨d2, h⟩ <;>
    rw [h] <;> simp [mkUpdateEvent, mkUpdatePage]

theorem syncCompare_no_fetch (env : Env) (row : TaskRow) (eid gt : String) (gu : Int)
    (gd : Option Date) (e : String) :
    Call.fetchEvent e ∉ (syncCompare env row eid gt gu gd).1 := by
  rcases syncCompare_shape env row eid gt gu gd with h | ⟨d, h⟩ | ⟨d2, h⟩ <;>
    rw [h] <;> simp [mkUpdateEvent, mkUpdatePage]

theorem syncCompare_failed_event_raises (env : Env) (row : TaskRow) (eid gt : String) (gu : Int)
    (gd : Option Date) (e t : String) (d : Option Date)
    (h : Call.updateEvent e t d false ∈ (syncCompare env row eid gt gu gd).1) :
    (syncCompare env row eid gt gu gd).2 = Outcome.raised := by
  rcases syncCompare_shape env row eid gt gu gd with h1 | ⟨d1, h1⟩ | ⟨d2, h1⟩ <;> rw [h1] at h ⊢
  · simp at h
  · simp only [mkUpdateEvent, List.mem_singleton, Call.updateEvent.injEq] at h
    obtain ⟨-, -, -, hok⟩ := h
    simp [mkUpdateEvent, ← hok]
  · simp [mkUpdatePage] at h

theorem syncCompare_failed_page_raises (env : Env) (row : TaskRow) (eid gt : String) (gu : Int)
    (gd : Option Date) (p : String) (d : Date)
    (h : Call.updatePage p (PageUpdate.setWorkDate d) false ∈ (syncCompare env row eid gt gu gd).1) :
    (syncCompare env row eid gt gu gd).2 = Outcome.raised := by
  rcases syncCompare_shape env row eid gt gu gd with h1 | ⟨d1, h1⟩ | ⟨d2, h1⟩ <;> rw [h1] at h ⊢
  · simp at h
  · simp [mkUpdateEvent] at h
  · simp only [mkUpdatePage, List.mem_singleton, Call.updatePage.injEq] at h
    obtain ⟨-, -, hok⟩ := h
    simp [mkUpdatePage, ← hok]

theorem listStartsWith_append (p t : List Char) : listStartsWith p (p ++ t) = true := by
  induction p with
  | nil => rfl
  | cons c cs ih => simp [listStartsWith, ih]

theorem startsWithCancel_append (s : String) : startsWithCancel (cancelMark ++ s) = true := by
  have h : (cancelMark ++ s).toList = cancelMark.toList ++ s.toList := rfl
  rw [startsWithCancel, h]
  exact listStartsWith_append _ _

theorem process_sync_row_canceled_unmirrored (env : Env) (row : TaskRow)
    (hc : row.isCanceled = true) (hm : strFalsy row.gcal_event_id = true) :
    process_sync_row env row = ([], Outcome.normal) := by
  unfold process_sync_row
  rw [hm, hc]
  simp

theorem process_sync_row_unmirrored_shape (env : Env) (row : TaskRow)
    (hm : strFalsy row.gcal_event_id = true) :
    process_sync_row env row = ([], Outcome.normal)
    ∨ ∃ wd, row.work_date = some wd ∧ process_sync_row env row = createBranch env row wd := by
  by_cases hc : row.isCanceled = true
  · exact Or.inl (process_sync_row_canceled_unmirrored env row hc hm)
  · rw [Bool.not_eq_true] at hc
    cases hwd : row.work_date with
    | none =>
      left
      unfold process_sync_row
      rw [hm, hc, hwd]
      simp
    | some wd => exact Or.inr ⟨wd, rfl, process_sync_row_create env row wd hm hc hwd⟩

theorem createBranch_calls (env : Env) (row : TaskRow) (wd : Date) (c : Call)
    (h : c ∈ (createBranch env row wd).1) :
    (∃ r, c = Call.createEvent (targetTitle row) wd r)
    ∨ ∃ i ok, c = Call.updatePage row.id (PageUpdate.setGcalEventId i) ok := by
  unfold createBranch at h
  cases hcr : env.createEvent (targetTitle row) wd with
  | none =>
    rw [hcr] at h
    simp only [List.mem_singleton] at h
    exact Or.inl ⟨none, h⟩
  | some newId =>
    rw [hcr] at h
    simp only [List.mem_cons, List.mem_singleton, List.not_mem_nil, or_false] at h
    rcases h with h | h
    · exact Or.inl ⟨some newId, h⟩
    · exact Or.inr ⟨newId, _, h⟩

theorem createBranch_normal (env : Env) (row : TaskRow) (wd : Date) :
    (createBranch env row wd).2 = Outcome.normal := by
  unfold createBranch
  cases env.createEvent (targetTitle row) wd <;> rfl

theorem applyTrace_nil (st : SyncState) : applyTrace st [] = st := rfl

theorem applyTrace_cons (st : SyncState) (c : Call) (tr : List Call) :
    applyTrace st (c :: tr) = applyTrace (applyCall st c) tr := rfl

theorem applyCall_gcal_id (st : SyncState) (c : Call)
    (h : ∀ pid e ok, c ≠ Call.updatePage pid (PageUpdate.setGcalEventId e) ok) :
    (applyCall st c).task.gcal_event_id = st.task.gcal_event_id := by
  cases c with
  | fetchEvent e => rfl
  | createEvent t d r => cases r <;> rfl
  | updateEvent e t d ok => cases ok <;> rfl
  | updatePage pid upd ok =>
    cases upd with
    | setGcalEventId e => exact absurd rfl (h pid e ok)
    | setWorkDate d =>
      by_cases hcond : (ok && pid == st.task.id) = true
      · simp [applyCall, hcond]
      · simp [applyCall, hcond]

theorem applyTrace_gcal_id (tr : List Call) (st : SyncState)
    (h : ∀ pid e ok, Call.updatePage pid (PageUpdate.setGcalEventId e) ok ∉ tr) :
    (applyTrace st tr).task.gcal_event_id = st.task.gcal_event_id := by
  induction tr generalizing st with
  | nil => rfl
  | cons c cs ih =>
    rw [applyTrace_cons]
    have h1 : ∀ pid e ok, Call.updatePage pid (PageUpdate.setGcalEventId e) ok ∉ cs :=
      fun pid e ok hmem => h pid e ok (List.mem_cons_of_mem _ hmem)
    have h0 : ∀ pid e ok, c ≠ Call.updatePage pid (PageUpdate.setGcalEventId e) ok :=
      fun pid e ok hc => h pid e ok (hc ▸ List.mem_cons_self c cs)
    rw [ih _ h1, applyCall_gcal_id st c h0]

/-- C7: a canceled task — one with no scheduled date or with status on-hold —
that also has no mirrored-event-id produces no store calls at all: no event is
created, none is fetched, nothing is written, and the run returns normally. -/
theorem sync_canceled_unmirrored_silent (env : Env) (row : TaskRow)
    (hc : row.isCanceled = true) (hm : strFalsy row.gcal_event_id = true) :
    process_sync_row env row = ([], Outcome.normal) :=
  process_sync_row_canceled_unmirrored env row hc hm

theorem sync_canceled_unmirrored_silent_witness :
    process_sync_row envAllOk rowOnHold = ([], Outcome.normal) :=
  sync_canceled_unmirrored_silent envAllOk rowOnHold (by decide) (by decide)

/-- C8: when the stored mirrored-event-id resolves to not-found, the engine
only fetches: it performs no store mutation, recreates nothing, and leaves the
task's mirrored-event-id untouched, returning normally. -/
theorem sync_deleted_mirror_noop (env : Env) (row : TaskRow) (eid : String)
    (hm : row.gcal_event_id = some eid) (he : eid ≠ "") (hf : env.getEvent eid = none) :
    process_sync_row env row = ([Call.fetchEvent eid], Outcome.normal) :=
  process_sync_row_fetch_none env row eid hm he hf

theorem sync_deleted_mirror_noop_witness :
    process_sync_row envAllOk rowMirroredA = ([Call.fetchEvent "e1"], Outcome.normal) :=
  sync_deleted_mirror_noop envAllOk rowMirroredA "e1" rfl (by decide) rfl

/-- C10: `get_event` collapses a transport error to the same `None` as a
genuine not-found, so for a mirrored task the engine behaves identically under
the two raw behaviours and settles on the not-found no-op. -/
theorem sync_fetch_error_collapsed (base : Env) (row : TaskRow) (eid : String)
    (r1 r2 : String → FetchRaw)
    (hm : row.gcal_event_id = some eid) (he : eid ≠ "")
    (h1 : r1 eid = FetchRaw.notFound) (h2 : r2 eid = FetchRaw.transportError) :
    get_event (r1 eid) = get_event (r2 eid)
    ∧ process_sync_row (envOfRaw r1 base) row = ([Call.fetchEvent eid], Outcome.normal)
    ∧ process_sync_row (envOfRaw r2 base) row = process_sync_row (envOfRaw r1 base) row := by
  have g1 : (envOfRaw r1 base).getEvent eid = none := by simp [envOfRaw, h1, get_event]
  have g2 : (envOfRaw r2 base).getEvent eid = none := by simp [envOfRaw, h2, get_event]
  refine ⟨by rw [h1, h2]; rfl, process_sync_row_fetch_none _ row eid hm he g1, ?_⟩
  rw [process_sync_row_fetch_none _ row eid hm he g2,
    process_sync_row_fetch_none _ row eid hm he g1]

theorem sync_fetch_error_collapsed_witness :
    get_event (rawNotFound "e1") = get_event (rawTransportError "e1")
    ∧ process_sync_row (envOfRaw rawNotFound envAllOk) rowMirroredA
        = ([Call.fetchEvent "e1"], Outcome.normal)
    ∧ process_sync_row (envOfRaw rawTransportError envAllOk) rowMirroredA
        = process_sync_row (envOfRaw rawNotFound envAllOk) rowMirroredA :=
  sync_fetch_error_collapsed envAllOk rowMirroredA "e1" rawNotFound rawTransportError
    rfl (by decide) rfl rfl

/-- C3: a non-canceled task with a scheduled date and no mirrored-event-id
gets exactly one event created, titled with the display title (project suffix
included when a project is set) and dated with the scheduled date; on success
the returned event id is written back into the task's mirrored-event-id
field. -/
theorem sync_first_sync_creates (env : Env) (st : SyncState) (wd : Date) (newId : String)
    (hm : strFalsy st.task.gcal_event_id = true) (hc : st.task.isCanceled = false)
    (hw : st.task.work_date = some wd)
    (hcr : env.createEvent (displayTitle st.task) wd = some newId) :
    process_sync_row env st.task
      = ([Call.createEvent (displayTitle st.task) wd (some newId),
          Call.updatePage st.task.id (PageUpdate.setGcalEventId newId)
            (env.updatePageOk st.task.id (PageUpdate.setGcalEventId newId))], Outcome.normal)
    ∧ (env.updatePageOk st.task.id (PageUpdate.setGcalEventId newId) = true →
        (runStateEnv env st).task.gcal_event_id = some newId) := by
  have ht : targetTitle st.task = displayTitle st.task := by
    unfold targetTitle
    rw [hc]
    simp
  have htr : process_sync_row env st.task
      = ([Call.createEvent (displayTitle st.task) wd (some newId),
          Call.updatePage st.task.id (PageUpdate.setGcalEventId newId)
            (env.updatePageOk st.task.id (PageUpdate.setGcalEventId newId))], Outcome.normal) := by
    rw [process_sync_row_create env st.task wd hm hc hw]
    unfold createBranch
    rw [ht, hcr]
  refine ⟨htr, fun hok => ?_⟩
  unfold runStateEnv
  rw [htr]
  simp [applyTrace, applyCall, hok]

theorem sync_first_sync_creates_witness :
    process_sync_row envAllOk rowUnmirrored
      = ([Call.createEvent "task3【Ops】" dateA (some "ev1"),
          Call.updatePage "t3" (PageUpdate.setGcalEventId "ev1") true], Outcome.normal)
    ∧ (runStateEnv envAllOk stUnmirrored).task.gcal_event_id = some "ev1" := by
  have h := sync_first_sync_creates envAllOk stUnmirrored dateA "ev1"
    (by decide) (by decide) rfl rfl
  exact ⟨h.1, h.2 rfl⟩

/-- C9: the mirrored-event-id is written only through the creation branch,
which runs only when the stored id is absent/falsy; every event fetch uses
exactly the stored id (never a content search); and once the id is set, no
engine run changes it. -/
theorem sync_mirror_id_stable (env : Env) (st : SyncState) :
    (∀ pid e ok,
      Call.updatePage pid (PageUpdate.setGcalEventId e) ok ∈ (process_sync_row env st.task).1 →
      strFalsy st.task.gcal_event_id = true)
    ∧ (∀ e, Call.fetchEvent e ∈ (process_sync_row env st.task).1 →
        st.task.gcal_event_id = some e)
    ∧ (strFalsy st.task.gcal_event_id = false →
        (runStateEnv env st).task.gcal_event_id = st.task.gcal_event_id) := by
  by_cases hsf : strFalsy st.task.gcal_event_id = true
  · refine ⟨fun _ _ _ _ => hsf, ?_, ?_⟩
    · intro e hmem
      exfalso
      rcases process_sync_row_unmirrored_shape env st.task hsf with h | ⟨wd, hwd, h⟩
      · rw [h] at hmem
        simp at hmem
      · rw [h] at hmem
        rcases createBranch_calls env st.task wd _ hmem with ⟨r, hr⟩ | ⟨i, ok, hr⟩ <;> simp at hr
    · intro hfalse
      rw [hsf] at hfalse
      exact absurd hfalse (by simp)
  · rw [Bool.not_eq_true] at hsf
    obtain ⟨eid, hm, he⟩ := (strFalsy_false_iff _).1 hsf
    have key : (process_sync_row env st.task).1 = [Call.fetchEvent eid]
        ∨ ∃ gt gu gd, (process_sync_row env st.task).1
            = Call.fetchEvent eid :: (syncCompare env st.task eid gt gu gd).1 := by
      cases hf : env.getEvent eid with
      | none => exact Or.inl (by rw [process_sync_row_fetch_none env st.task eid hm he hf])
      | some ev =>
        cases hp : ev.parsedDate with
        | none => exact Or.inl (by rw [process_sync_row_malformed env st.task eid ev hm he hf hp])
        | some gd =>
          exact Or.inr ⟨_, _, _, by rw [process_sync_row_fetched env st.task eid ev gd hm he hf hp]⟩
    have hnog : ∀ pid e ok,
        Call.updatePage pid (PageUpdate.setGcalEventId e) ok ∉ (process_sync_row env st.task).1 := by
      intro pid e ok hmem
      rcases key with h | ⟨gt, gu, gd, h⟩
      · rw [h] at hmem
        simp at hmem
      · rw [h] at hmem
        rcases List.mem_cons.1 hmem with h1 | h1
        · simp at h1
        · exact syncCompare_no_setgid env st.task eid gt gu gd pid e ok h1
    refine ⟨fun pid e ok hmem => absurd hmem (hnog pid e ok), ?_, fun _ => applyTrace_gcal_id _ st hnog⟩
    intro e hmem
    rcases key with h | ⟨gt, gu, gd, h⟩
    · rw [h] at hmem
      simp at hmem
      rw [hm, hmem]
    · rw [h] at hmem
      rcases List.mem_cons.1 hmem with h1 | h1
      · injection h1 with h1
        rw [hm, h1]
      · exact absurd h1 (syncCompare_no_fetch env st.task eid gt gu gd e)

theorem sync_mirror_id_stable_witness :
    strFalsy stUnmirrored.task.gcal_event_id = true :=
  (sync_mirror_id_stable envAllOk stUnmirrored).1 "t3" "ev1" true (by decide)

/-- C2: for a canceled task (no scheduled date or on-hold) with an existing,
well-formed mirrored event: if the event's title differs from the target
title, the engine issues exactly one event update carrying the cancel-marked
display title and the event's own date (today only when the event has no
date); if the title already matches, nothing is issued. Nothing is ever
written to the task in this branch. -/
theorem sync_cancellation_precedence (env : Env) (row : TaskRow) (eid : String)
    (ev : GEvent) (gdOpt : Option Date)
    (hc : row.isCanceled = true) (hm : row.gcal_event_id = some eid) (he : eid ≠ "")
    (hf : env.getEvent eid = some ev) (hp : ev.parsedDate = some gdOpt) :
    (ev.titleOrEmpty ≠ targetTitle row →
      process_sync_row env row
        = ([Call.fetchEvent eid,
            Call.updateEvent eid (targetTitle row) (some (gdOpt.getD env.today))
              (env.updateEventOk eid (targetTitle row) (some (gdOpt.getD env.today)))],
          if env.updateEventOk eid (targetTitle row) (some (gdOpt.getD env.today))
          then Outcome.normal else Outcome.raised))
    ∧ (ev.titleOrEmpty = targetTitle row →
      process_sync_row env row = ([Call.fetchEvent eid], Outcome.normal)) := by
  have hstep := process_sync_row_fetched env row eid ev gdOpt hm he hf hp
  constructor
  · intro hne
    rw [hstep]
    have hsc : syncCompare env row eid ev.titleOrEmpty ev.updatedTs gdOpt
        = mkUpdateEvent env eid (targetTitle row) (some (gdOpt.getD env.today)) := by
      unfold syncCompare
      rw [if_neg (fun hand => hne hand.1), hc, if_pos rfl, if_pos (Or.inr hne)]
    rw [hsc]
    rfl
  · intro heq
    rw [hstep]
    by_cases hd : gdOpt = row.work_date
    · have hsc : syncCompare env row eid ev.titleOrEmpty ev.updatedTs gdOpt
          = ([], Outcome.normal) := by
        unfold syncCompare
        rw [if_pos ⟨heq, hd⟩]
      rw [hsc]
    · have hts : startsWithCancel ev.titleOrEmpty = true := by
        rw [heq]
        unfold targetTitle
        rw [hc, if_pos rfl]
        exact startsWithCancel_append _
      have hsc : syncCompare env row eid ev.titleOrEmpty ev.updatedTs gdOpt
          = ([], Outcome.normal) := by
        unfold syncCompare
        rw [if_neg (fun hand => hd hand.2), hc, if_pos rfl, if_neg]
        push_neg
        exact ⟨hts, heq⟩
      rw [hsc]

theorem sync_cancellation_precedence_witness :
    process_sync_row envFetchStale rowOnHoldMirrored
      = ([Call.fetchEvent "e1", Call.updateEvent "e1" "【中止】task2" (some dateB) true],
        Outcome.normal) := by
  have h := (sync_cancellation_precedence envFetchStale rowOnHoldMirrored "e1" evStale
    (some dateB) (by decide) rfl (by decide) (by decide) (by decide)).1 (by decide)
  rw [h]
  decide

/-- C1: last-writer-wins for a non-canceled mirrored task whose well-formed
event disagrees with the target state: if the task was edited strictly later
than the event, the engine issues exactly one event update to
(target title, scheduled date) and writes nothing to the task; if the event
is strictly newer and carries a date different from the task's scheduled
date, the engine writes exactly that date into the task and leaves the event
untouched. -/
theorem sync_last_writer_wins (env : Env) (row : TaskRow) (eid : String)
    (ev : GEvent) (gdOpt : Option Date)
    (hc : row.isCanceled = false) (hm : row.gcal_event_id = some eid) (he : eid ≠ "")
    (hf : env.getEvent eid = some ev) (hp : ev.parsedDate = some gdOpt)
    (hx : ¬ (ev.titleOrEmpty = targetTitle row ∧ gdOpt = row.work_date)) :
    (ev.updatedTs < row.last_edited →
      process_sync_row env row
        = ([Call.fetchEvent eid,
            Call.updateEvent eid (targetTitle row) row.work_date
              (env.updateEventOk eid (targetTitle row) row.work_date)],
          if env.updateEventOk eid (targetTitle row) row.work_date
          then Outcome.normal else Outcome.raised))
    ∧ (∀ gd : Date, row.last_edited < ev.updatedTs → gdOpt = some gd →
        some gd ≠ row.work_date →
      process_sync_row env row
        = ([Call.fetchEvent eid,
            Call.updatePage row.id (PageUpdate.setWorkDate gd)
              (env.updatePageOk row.id (PageUpdate.setWorkDate gd))],
          if env.updatePageOk row.id (PageUpdate.setWorkDate gd)
          then Outcome.normal else Outcome.raised)) := by
  have hstep := process_sync_row_fetched env row eid ev gdOpt hm he hf hp
  constructor
  · intro hlt
    rw [hstep]
    have hsc : syncCompare env row eid ev.titleOrEmpty ev.updatedTs gdOpt
        = mkUpdateEvent env eid (targetTitle row) row.work_date := by
      unfold syncCompare
      rw [if_neg hx, hc, if_neg Bool.false_ne_true, if_pos hlt]
    rw [hsc]
    rfl
  · intro gd hgt heq hne
    subst heq
    rw [hstep]
    have hsc : syncCompare env row eid ev.titleOrEmpty ev.updatedTs (some gd)
        = mkUpdatePage env row.id (PageUpdate.setWorkDate gd) := by
      unfold syncCompare
      rw [if_neg hx, hc, if_neg Bool.false_ne_true, if_neg (not_lt.2 (le_of_lt hgt)),
        if_pos hgt]
      dsimp only
      rw [if_pos hne]
    rw [hsc]
    rfl

theorem sync_last_writer_wins_witness :
    process_sync_row envFetchStale rowMirrNewer
      = ([Call.fetchEvent "e1", Call.updateEvent "e1" "task1" (some dateA) true],
        Outcome.normal) := by
  have h := (sync_last_writer_wins envFetchStale rowMirrNewer "e1" evStale (some dateB)
    (by decide) rfl (by decide) (by decide) (by decide) (by decide)).1 (by decide)
  rw [h]
  decide


/-- C4 (amended): per-task failures are caught only in the creation branch and
the event fetch — there the run returns normally and the pass continues — but
an exception in the comparison branch (a failing event update, a failing task
date write-back, or a malformed event date) propagates out of
`process_sync_row`, and `main`'s per-task loop then skips every remaining row
of the pass. -/
theorem sync_error_containment_amended (env : Env) (row : TaskRow) :
    (strFalsy row.gcal_event_id = true → (process_sync_row env row).2 = Outcome.normal)
    ∧ (∀ eid, row.gcal_event_id = some eid → eid ≠ "" → env.getEvent eid = none →
        (process_sync_row env row).2 = Outcome.normal)
    ∧ (∀ e t d, Call.updateEvent e t d false ∈ (process_sync_row env row).1 →
        (process_sync_row env row).2 = Outcome.raised)
    ∧ (∀ p d, Call.updatePage p (PageUpdate.setWorkDate d) false ∈ (process_sync_row env row).1 →
        (process_sync_row env row).2 = Outcome.raised)
    ∧ (∀ eid ev, row.gcal_event_id = some eid → eid ≠ "" → env.getEvent eid = some ev →
        ev.parsedDate = none → (process_sync_row env row).2 = Outcome.raised)
    ∧ (∀ rest : List TaskRow, (process_sync_row env row).2 = Outcome.raised →
        runPass env (row :: rest) = [(process_sync_row env row).1]) := by
  refine ⟨?_, ?_, ?_, ?_, ?_, ?_⟩
  · intro hsf
    rcases process_sync_row_unmirrored_shape env row hsf with h | ⟨wd, hwd, h⟩
    · rw [h]
    · rw [h]
      exact createBranch_normal env row wd
  · intro eid hm he hf
    rw [process_sync_row_fetch_none env row eid hm he hf]
  · intro e t d hmem
    by_cases hsf : strFalsy row.gcal_event_id = true
    · exfalso
      rcases process_sync_row_unmirrored_shape env row hsf with h | ⟨wd, hwd, h⟩
      · rw [h] at hmem
        simp at hmem
      · rw [h] at hmem
        rcases createBranch_calls env row wd _ hmem with ⟨r, hr⟩ | ⟨i, ok, hr⟩ <;> simp at hr
    · rw [Bool.not_eq_true] at hsf
      obtain ⟨eid, hm, he⟩ := (strFalsy_false_iff _).1 hsf
      cases hf : env.getEvent eid with
      | none =>
        rw [process_sync_row_fetch_none env row eid hm he hf] at hmem
        simp at hmem
      | some ev =>
        cases hp : ev.parsedDate with
        | none =>
          rw [process_sync_row_malformed env row eid ev hm he hf hp] at hmem
          simp at hmem
        | some gd =>
          rw [process_sync_row_fetched env row eid ev gd hm he hf hp] at hmem ⊢
          rcases List.mem_cons.1 hmem with h1 | h1
          · simp at h1
          · exact syncCompare_failed_event_raises env row eid ev.titleOrEmpty ev.updatedTs gd e t d h1
  · intro p d hmem
    by_cases hsf : strFalsy row.gcal_event_id = true
    · exfalso
      rcases process_sync_row_unmirrored_shape env row hsf with h | ⟨wd, hwd, h⟩
      · rw [h] at hmem
        simp at hmem
      · rw [h] at hmem
        rcases createBranch_calls env row wd _ hmem with ⟨r, hr⟩ | ⟨i, ok, hr⟩ <;> simp at hr
    · rw [Bool.not_eq_true] at hsf
      obtain ⟨eid, hm, he⟩ := (strFalsy_false_iff _).1 hsf
      cases hf : env.getEvent eid with
      | none =>
        rw [process_sync_row_fetch_none env row eid hm he hf] at hmem
        simp at hmem
      | some ev =>
        cases hp : ev.parsedDate with
        | none =>
          rw [process_sync_row_malformed env row eid ev hm he hf hp] at hmem
          simp at hmem
        | some gd =>
          rw [process_sync_row_fetched env row eid ev gd hm he hf hp] at hmem ⊢
          rcases List.mem_cons.1 hmem with h1 | h1
          · simp at h1
          · exact syncCompare_failed_page_raises env row eid ev.titleOrEmpty ev.updatedTs gd p d h1
  · intro eid ev hm he hf hp
    rw [process_sync_row_malformed env row eid ev hm he hf hp]
  · intro rest h
    rcases hpr : process_sync_row env row with ⟨tr, o⟩
    rw [hpr] at h
    cases o with
    | normal => simp at h
    | raised =>
      unfold runPass
      rw [hpr]

theorem sync_error_containment_witness :
    (process_sync_row envUpdateFails rowMirrNewer).2 = Outcome.raised :=
  (sync_error_containment_amended envUpdateFails rowMirrNewer).2.2.1 "e1" "task1"
    (some dateA) (by decide)

/-- C4 counterexample: with a mirrored event present and the event-update
request failing, `process_sync_row` raises out of the per-task step, and a
two-task pass processes only its first task. -/
theorem sync_error_containment_cex :
    (process_sync_row envUpdateFails rowMirrNewer).2 = Outcome.raised
    ∧ (runPass envUpdateFails [rowMirrNewer, rowOnHold]).length = 1 := by
  decide

/-- C6 (amended): on the first-sync creation path, if `create_event` itself
fails nothing is persisted and the task stays unmirrored; if instead the id
write-back fails, the run still returns normally and the task stays
unmirrored for the next pass, but the freshly created event remains persisted
in the event store. -/
theorem sync_creation_atomicity_amended (env : Env) (st : SyncState) (wd : Date)
    (hm : strFalsy st.task.gcal_event_id = true) (hc : st.task.isCanceled = false)
    (hw : st.task.work_date = some wd) :
    (env.createEvent (targetTitle st.task) wd = none →
      runStateEnv env st = st ∧ (process_sync_row env st.task).2 = Outcome.normal)
    ∧ (∀ newId, env.createEvent (targetTitle st.task) wd = some newId →
        env.updatePageOk st.task.id (PageUpdate.setGcalEventId newId) = false →
        (runStateEnv env st).task = st.task
        ∧ (runStateEnv env st).events
            = st.events ++ [(newId, ⟨some (targetTitle st.task), some wd.toIso, none⟩)]
        ∧ (process_sync_row env st.task).2 = Outcome.normal) := by
  have hstep := process_sync_row_create env st.task wd hm hc hw
  constructor
  · intro hcr
    have htr : process_sync_row env st.task
        = ([Call.createEvent (targetTitle st.task) wd none], Outcome.normal) := by
      rw [hstep]
      unfold createBranch
      rw [hcr]
    constructor
    · unfold runStateEnv
      rw [htr]
      rfl
    · rw [htr]
  · intro newId hcr hok
    have htr : process_sync_row env st.task
        = ([Call.createEvent (targetTitle st.task) wd (some newId),
            Call.updatePage st.task.id (PageUpdate.setGcalEventId newId) false], Outcome.normal) := by
      rw [hstep]
      unfold createBranch
      rw [hcr]
      dsimp only
      rw [hok]
    have happ : runStateEnv env st
        = { task := st.task,
            events := st.events ++ [(newId, ⟨some (targetTitle st.task), some wd.toIso, none⟩)] } := by
      unfold runStateEnv
      rw [htr]
      simp [applyTrace, applyCall]
    rw [happ, htr]
    exact ⟨rfl, rfl, rfl⟩

theorem sync_creation_atomicity_witness :
    (runStateEnv envPageFails stUnmirrored).task = stUnmirrored.task
    ∧ (runStateEnv envPageFails stUnmirrored).events
        = stUnmirrored.events
            ++ [("ev1", ⟨some (targetTitle stUnmirrored.task), some dateA.toIso, none⟩)]
    ∧ (process_sync_row envPageFails stUnmirrored.task).2 = Outcome.normal :=
  (sync_creation_atomicity_amended envPageFails stUnmirrored dateA
    (by decide) (by decide) rfl).2 "ev1" rfl rfl

/-- C6 counterexample: creation succeeded and the id write-back failed; the
run returned normally and the task is left unmirrored, yet the freshly
created event is persisted in the event store — partial state in one store. -/
theorem sync_creation_atomicity_cex :
    (process_sync_row envPageFails rowUnmirrored).1
      = [Call.createEvent "task3【Ops】" dateA (some "ev1"),
         Call.updatePage "t3" (PageUpdate.setGcalEventId "ev1") false]
    ∧ (runStateEnv envPageFails stUnmirrored).task.gcal_event_id = none
    ∧ (runStateEnv envPageFails stUnmirrored).events ≠ stUnmirrored.events := by
  decide

theorem findEvent_patch (evs : List (String × GEvent)) (eid : String) (f : GEvent → GEvent) :
    findEvent (evs.map (fun p => if p.1 == eid then (p.1, f p.2) else p)) eid
      = (findEvent evs eid).map f := by
  induction evs with
  | nil => rfl
  | cons x xs ih =>
    by_cases hx : (x.1 == eid) = true
    · simp [findEvent, hx]
    · simp only [List.map_cons, findEvent, if_neg hx]
      exact ih

theorem findEvent_append_fresh (evs : List (String × GEvent)) (fid : String) (ev : GEvent)
    (h : findEvent evs fid = none) :
    findEvent (evs ++ [(fid, ev)]) fid = some ev := by
  induction evs with
  | nil => simp [findEvent]
  | cons x xs ih =>
    by_cases hx : (x.1 == fid) = true
    · simp only [findEvent, if_pos hx] at h
      exact absurd h (by simp)
    · simp only [List.cons_append, findEvent, if_neg hx] at h ⊢
      exact ih h

theorem applyTrace_no_mut (st : SyncState) (tr : List Call) (h : mutations tr = []) :
    applyTrace st tr = st := by
  induction tr generalizing st with
  | nil => rfl
  | cons c cs ih =>
    unfold mutations at h
    rw [List.filter_cons] at h
    by_cases hc : isMutation c = true
    · rw [if_pos hc] at h
      simp at h
    · rw [if_neg hc] at h
      have hcall : applyCall st c = st := by
        cases c with
        | fetchEvent e => rfl
        | createEvent t d r => simp [isMutation] at hc
        | updateEvent e t d ok => simp [isMutation] at hc
        | updatePage p u ok => simp [isMutation] at hc
      rw [applyTrace_cons, hcall]
      exact ih st h

theorem stepState_of_no_mut (today : Date) (fid : String) (st : SyncState)
    (h : mutations (runTrace today fid st) = []) : stepState today fid st = st := by
  unfold stepState
  exact applyTrace_no_mut st _ h

theorem converges_of_first_noop (today : Date) (fid : String) (st : SyncState)
    (h : mutations (runTrace today fid st) = []) :
    (mutations (runTrace today fid (stepState today fid st)) = []
      ∨ ∃ e t d, mutations (runTrace today fid (stepState today fid st))
          = [Call.updateEvent e t d true])
    ∧ mutations (runTrace today fid (stepState today fid (stepState today fid st))) = [] := by
  have hs : stepState today fid st = st := stepState_of_no_mut today fid st h
  rw [hs, hs]
  exact ⟨Or.inl h, h⟩

theorem converges_of_second_noop (today : Date) (fid : String) (st : SyncState)
    (h : mutations (runTrace today fid (stepState today fid st)) = []) :
    (mutations (runTrace today fid (stepState today fid st)) = []
      ∨ ∃ e t d, mutations (runTrace today fid (stepState today fid st))
          = [Call.updateEvent e t d true])
    ∧ mutations (runTrace today fid (stepState today fid (stepState today fid st))) = [] :=
  ⟨Or.inl h, by rw [stepState_of_no_mut today fid _ h]; exact h⟩

theorem parsedDate_valid (ev : GEvent) (gd : Date) (h : ev.parsedDate = some (some gd)) :
    gd.Valid := by
  unfold GEvent.parsedDate at h
  cases hs : ev.start with
  | none =>
    rw [hs] at h
    simp at h
  | some s =>
    rw [hs] at h
    have h2 : Option.map some (parseIsoDate s) = some (some gd) := h
    cases hps : parseIsoDate s with
    | none =>
      rw [hps] at h2
      simp at h2
    | some d =>
      rw [hps] at h2
      simp at h2
      rw [← h2]
      exact parseIsoDate_valid s d hps

theorem isCanceled_set_wd_of_false (t : TaskRow) (d : Date) (h : t.isCanceled = false) :
    TaskRow.isCanceled { t with work_date := some d } = false := by
  unfold TaskRow.isCanceled at h ⊢
  simp only [Bool.or_eq_false_iff] at h
  simp only [Option.isNone_some, Bool.false_or]
  exact h.2

theorem targetTitle_set_wd_of_false (t : TaskRow) (d : Date) (h : t.isCanceled = false) :
    targetTitle { t with work_date := some d } = targetTitle t := by
  unfold targetTitle
  rw [isCanceled_set_wd_of_false t d h, h, if_neg Bool.false_ne_true, if_neg Bool.false_ne_true]
  rfl

theorem runTrace_exact_match (today : Date) (fid : String) (st : SyncState) (eid : String)
    (ev : GEvent) (hm : st.task.gcal_event_id = some eid) (he : eid ≠ "")
    (hf : findEvent st.events eid = some ev)
    (ht : ev.titleOrEmpty = targetTitle st.task)
    (hd : ev.parsedDate = some st.task.work_date) :
    runTrace today fid st = [Call.fetchEvent eid] := by
  unfold runTrace
  rw [process_sync_row_fetched (pureEnv st today fid) st.task eid ev st.task.work_date hm he hf hd]
  have hsc : syncCompare (pureEnv st today fid) st.task eid ev.titleOrEmpty ev.updatedTs
      st.task.work_date = ([], Outcome.normal) := by
    unfold syncCompare
    rw [if_pos ⟨ht, rfl⟩]
  rw [hsc]

theorem runTrace_canceled_title_match (today : Date) (fid : String) (st : SyncState)
    (eid : String) (ev : GEvent) (gdOpt : Option Date)
    (hm : st.task.gcal_event_id = some eid) (he : eid ≠ "")
    (hf : findEvent st.events eid = some ev)
    (hc : st.task.isCanceled = true)
    (ht : ev.titleOrEmpty = targetTitle st.task)
    (hp : ev.parsedDate = some gdOpt) :
    runTrace today fid st = [Call.fetchEvent eid] := by
  unfold runTrace
  rw [process_sync_row_fetched (pureEnv st today fid) st.task eid ev gdOpt hm he hf hp]
  by_cases hd : gdOpt = st.task.work_date
  · have hsc : syncCompare (pureEnv st today fid) st.task eid ev.titleOrEmpty ev.updatedTs gdOpt
        = ([], Outcome.normal) := by
      unfold syncCompare
      rw [if_pos ⟨ht, hd⟩]
    rw [hsc]
  · have hts : startsWithCancel ev.titleOrEmpty = true := by
      rw [ht]
      unfold targetTitle
      rw [hc, if_pos rfl]
      exact startsWithCancel_append _
    have hsc : syncCompare (pureEnv st today fid) st.task eid ev.titleOrEmpty ev.updatedTs gdOpt
        = ([], Outcome.normal) := by
      unfold syncCompare
      rw [if_neg (fun hand => hd hand.2), hc, if_pos rfl, if_neg]
      push_neg
      exact ⟨hts, ht⟩
    rw [hsc]

theorem runTrace_fetched_eq (today : Date) (fid : String) (st : SyncState) (eid : String)
    (ev : GEvent) (gdOpt : Option Date)
    (hm : st.task.gcal_event_id = some eid) (he : eid ≠ "")
    (hfind : findEvent st.events eid = some ev) (hp : ev.parsedDate = some gdOpt) :
    runTrace today fid st = Call.fetchEvent eid
        :: (syncCompare (pureEnv st today fid) st.task eid ev.titleOrEmpty ev.updatedTs gdOpt).1 := by
  unfold runTrace
  rw [process_sync_row_fetched (pureEnv st today fid) st.task eid ev gdOpt hm he hfind hp]

theorem converge_after_event_update (today : Date) (fid : String) (st : SyncState)
    (eid : String) (ev : GEvent) (up : Date)
    (hm : st.task.gcal_event_id = some eid) (he : eid ≠ "")
    (hfind : findEvent st.events eid = some ev)
    (h1 : runTrace today fid st
      = [Call.fetchEvent eid, Call.updateEvent eid (targetTitle st.task) (some up) true])
    (hupv : up.Valid)
    (hmatch : st.task.isCanceled = true ∨ st.task.work_date = some up) :
    mutations (runTrace today fid (stepState today fid st)) = [] := by
  have hst2 : stepState today fid st
      = { st with events := st.events.map (fun p =>
          if p.1 == eid then (p.1, patchEvent p.2 (targetTitle st.task) (some up)) else p) } := by
    unfold stepState
    rw [h1]
    simp [applyTrace, List.foldl_cons, List.foldl_nil, applyCall]
  have hfind2 : findEvent (st.events.map (fun p =>
      if p.1 == eid then (p.1, patchEvent p.2 (targetTitle st.task) (some up)) else p)) eid
      = some (patchEvent ev (targetTitle st.task) (some up)) := by
    rw [findEvent_patch st.events eid (fun e2 => patchEvent e2 (targetTitle st.task) (some up)),
      hfind]
    rfl
  have hpd2 : (patchEvent ev (targetTitle st.task) (some up)).parsedDate = some (some up) := by
    have h2 : (patchEvent ev (targetTitle st.task) (some up)).parsedDate
        = Option.map some (parseIsoDate up.toIso) := rfl
    rw [h2, parseIsoDate_toIso up hupv]
    rfl
  rw [hst2]
  rcases hmatch with hc | hwd
  · rw [runTrace_canceled_title_match today fid
      { st with events := st.events.map (fun p =>
          if p.1 == eid then (p.1, patchEvent p.2 (targetTitle st.task) (some up)) else p) }
      eid (patchEvent ev (targetTitle st.task) (some up)) (some up) hm he hfind2 hc rfl hpd2]
    rfl
  · rw [runTrace_exact_match today fid
      { st with events := st.events.map (fun p =>
          if p.1 == eid then (p.1, patchEvent p.2 (targetTitle st.task) (some up)) else p) }
      eid (patchEvent ev (targetTitle st.task) (some up)) hm he hfind2 rfl
      (hpd2.trans (congrArg some hwd.symm))]
    rfl

/-- C5 (amended): run the engine once undisturbed, persist its successful
calls (field writes only; store-side timestamp bumps are not modelled), and
run it again: the second run makes no task-side write and at most one event
update — it is a no-op except when on the first run the event was strictly
newer with both a divergent date and a divergent title, in which case the
second run issues exactly one event update — and a third run is always a
no-op. -/
theorem sync_second_run_converges (st : SyncState) (today : Date) (fid : String)
    (hfid : fid ≠ "") (hfresh : findEvent st.events fid = none)
    (hvalid : ∀ w, st.task.work_date = some w → w.Valid) (htoday : today.Valid) :
    (mutations (runTrace today fid (stepState today fid st)) = []
      ∨ ∃ e t d, mutations (runTrace today fid (stepState today fid st))
          = [Call.updateEvent e t d true])
    ∧ mutations (runTrace today fid (stepState today fid (stepState today fid st))) = [] := by
  by_cases hsf : strFalsy st.task.gcal_event_id = true
  · rcases process_sync_row_unmirrored_shape (pureEnv st today fid) st.task hsf with h | ⟨wd, hwd, h⟩
    · exact converges_of_first_noop today fid st (by unfold runTrace; rw [h]; rfl)
    · have hwv : wd.Valid := hvalid wd hwd
      have h1 : runTrace today fid st
          = [Call.createEvent (targetTitle st.task) wd (some fid),
             Call.updatePage st.task.id (PageUpdate.setGcalEventId fid) true] := by
        unfold runTrace
        rw [h]
        rfl
      have hst2 : stepState today fid st
          = { task := { st.task with gcal_event_id := some fid },
              events := st.events ++ [(fid, ⟨some (targetTitle st.task), some wd.toIso, none⟩)] } := by
        unfold stepState
        rw [h1]
        simp [applyTrace, List.foldl_cons, List.foldl_nil, applyCall, beq_self_eq_true]
      have hfind2 : findEvent
          (st.events ++ [(fid, ⟨some (targetTitle st.task), some wd.toIso, none⟩)]) fid
          = some ⟨some (targetTitle st.task), some wd.toIso, none⟩ :=
        findEvent_append_fresh st.events fid _ hfresh
      have hpd2 : GEvent.parsedDate ⟨some (targetTitle st.task), some wd.toIso, none⟩
          = some (some wd) := by
        have h2 : GEvent.parsedDate ⟨some (targetTitle st.task), some wd.toIso, none⟩
            = Option.map some (parseIsoDate wd.toIso) := rfl
        rw [h2, parseIsoDate_toIso wd hwv]
        rfl
      have hrun2 : runTrace today fid (stepState today fid st) = [Call.fetchEvent fid] := by
        rw [hst2]
        exact runTrace_exact_match today fid
          { task := { st.task with gcal_event_id := some fid },
            events := st.events ++ [(fid, ⟨some (targetTitle st.task), some wd.toIso, none⟩)] }
          fid ⟨some (targetTitle st.task), some wd.toIso, none⟩ rfl hfid hfind2 rfl
          (hpd2.trans (congrArg some hwd.symm))
      exact converges_of_second_noop today fid st (by rw [hrun2]; rfl)
  · rw [Bool.not_eq_true] at hsf
    obtain ⟨eid, hm, he⟩ := (strFalsy_false_iff _).1 hsf
    cases hfind : findEvent st.events eid with
    | none =>
      refine converges_of_first_noop today fid st ?_
      unfold runTrace
      rw [process_sync_row_fetch_none (pureEnv st today fid) st.task eid hm he hfind]
      rfl
    | some ev =>
      cases hpd : ev.parsedDate with
      | none =>
        refine converges_of_first_noop today fid st ?_
        unfold runTrace
        rw [process_sync_row_malformed (pureEnv st today fid) st.task eid ev hm he hfind hpd]
        rfl
      | some gdOpt =>
        have hrt := runTrace_fetched_eq today fid st eid ev gdOpt hm he hfind hpd
        by_cases hx : (ev.titleOrEmpty = targetTitle st.task ∧ gdOpt = st.task.work_date)
        · refine converges_of_first_noop today fid st ?_
          rw [hrt]
          have hsc : syncCompare (pureEnv st today fid) st.task eid ev.titleOrEmpty
              ev.updatedTs gdOpt = ([], Outcome.normal) := by
            unfold syncCompare
            rw [if_pos hx]
          rw [hsc]
          rfl
        · by_cases hc : st.task.isCanceled = true
          · by_cases hcond : (¬ startsWithCancel ev.titleOrEmpty = true
                ∨ ev.titleOrEmpty ≠ targetTitle st.task)
            · have hupv : (gdOpt.getD today).Valid := by
                cases gdOpt with
                | none => exact htoday
                | some gd => exact parsedDate_valid ev gd hpd
              have h1 : runTrace today fid st
                  = [Call.fetchEvent eid,
                     Call.updateEvent eid (targetTitle st.task) (some (gdOpt.getD today)) true] := by
                rw [hrt]
                have hsc : syncCompare (pureEnv st today fid) st.task eid ev.titleOrEmpty
                    ev.updatedTs gdOpt
                    = mkUpdateEvent (pureEnv st today fid) eid (targetTitle st.task)
                        (some (gdOpt.getD today)) := by
                  unfold syncCompare
                  rw [if_neg hx, hc, if_pos rfl, if_pos hcond]
                  rfl
                rw [hsc]
                rfl
              exact converges_of_second_noop today fid st
                (converge_after_event_update today fid st eid ev (gdOpt.getD today)
                  hm he hfind h1 hupv (Or.inl hc))
            · refine converges_of_first_noop today fid st ?_
              rw [hrt]
              have hsc : syncCompare (pureEnv st today fid) st.task eid ev.titleOrEmpty
                  ev.updatedTs gdOpt = ([], Outcome.normal) := by
                unfold syncCompare
                rw [if_neg hx, hc, if_pos rfl, if_neg hcond]
              rw [hsc]
              rfl
          · rw [Bool.not_eq_true] at hc
            have hwds : ∃ wd, st.task.work_date = some wd := by
              unfold TaskRow.isCanceled at hc
              cases hw : st.task.work_date with
              | none =>
                rw [hw] at hc
                simp at hc
              | some wd => exact ⟨wd, rfl⟩
            obtain ⟨wd, hwd⟩ := hwds
            have hwv := hvalid wd hwd
            by_cases h1t : ev.updatedTs < st.task.last_edited
            · have h1 : runTrace today fid st
                  = [Call.fetchEvent eid,
                     Call.updateEvent eid (targetTitle st.task) (some wd) true] := by
                rw [hrt]
                have hsc : syncCompare (pureEnv st today fid) st.task eid ev.titleOrEmpty
                    ev.updatedTs gdOpt
                    = mkUpdateEvent (pureEnv st today fid) eid (targetTitle st.task)
                        st.task.work_date := by
                  unfold syncCompare
                  rw [if_neg hx, hc, if_neg Bool.false_ne_true, if_pos h1t]
                rw [hsc, hwd]
                rfl
              exact converges_of_second_noop today fid st
                (converge_after_event_update today fid st eid ev wd hm he hfind h1 hwv (Or.inr hwd))
            · by_cases h2t : st.task.last_edited < ev.updatedTs
              · cases gdOpt with
                | none =>
                  have h1 : runTrace today fid st
                      = [Call.fetchEvent eid,
                         Call.updateEvent eid (targetTitle st.task) (some wd) true] := by
                    rw [hrt]
                    have hsc : syncCompare (pureEnv st today fid) st.task eid ev.titleOrEmpty
                        ev.updatedTs none
                        = mkUpdateEvent (pureEnv st today fid) eid (targetTitle st.task)
                            st.task.work_date := by
                      unfold syncCompare
                      rw [if_neg hx, hc, if_neg Bool.false_ne_true, if_neg h1t, if_pos h2t]
                    rw [hsc, hwd]
                    rfl
                  exact converges_of_second_noop today fid st
                    (converge_after_event_update today fid st eid ev wd hm he hfind h1 hwv
                      (Or.inr hwd))
                | some gd =>
                  by_cases hneq : some gd ≠ st.task.work_date
                  · have hgv : gd.Valid := parsedDate_valid ev gd hpd
                    have h1 : runTrace today fid st
                        = [Call.fetchEvent eid,
                           Call.updatePage st.task.id (PageUpdate.setWorkDate gd) true] := by
                      rw [hrt]
                      have hsc : syncCompare (pureEnv st today fid) st.task eid ev.titleOrEmpty
                          ev.updatedTs (some gd)
                          = mkUpdatePage (pureEnv st today fid) st.task.id
                              (PageUpdate.setWorkDate gd) := by
                        unfold syncCompare
                        rw [if_neg hx, hc, if_neg Bool.false_ne_true, if_neg h1t, if_pos h2t]
                        dsimp only
                        rw [if_pos hneq]
                      rw [hsc]
                      rfl
                    have hst2 : stepState today fid st
                        = { st with task := { st.task with work_date := some gd } } := by
                      unfold stepState
                      rw [h1]
                      simp [applyTrace, List.foldl_cons, List.foldl_nil, applyCall,
                        beq_self_eq_true]
                    have hc2 : TaskRow.isCanceled { st.task with work_date := some gd } = false :=
                      isCanceled_set_wd_of_false st.task gd hc
                    have ht2 : targetTitle { st.task with work_date := some gd }
                        = targetTitle st.task :=
                      targetTitle_set_wd_of_false st.task gd hc
                    by_cases hT : ev.titleOrEmpty = targetTitle st.task
                    · have hrun2 : runTrace today fid (stepState today fid st)
                          = [Call.fetchEvent eid] := by
                        rw [hst2]
                        exact runTrace_exact_match today fid
                          { st with task := { st.task with work_date := some gd } } eid ev
                          hm he hfind (hT.trans ht2.symm) hpd
                      exact converges_of_second_noop today fid st (by rw [hrun2]; rfl)
                    · have hrt2 := runTrace_fetched_eq today fid
                        { st with task := { st.task with work_date := some gd } }
                        eid ev (some gd) hm he hfind hpd
                      dsimp only at hrt2
                      have h2run : runTrace today fid
                            { st with task := { st.task with work_date := some gd } }
                          = [Call.fetchEvent eid,
                             Call.updateEvent eid (targetTitle st.task) (some gd) true] := by
                        rw [hrt2]
                        have hsc2 : syncCompare
                            (pureEnv { st with task := { st.task with work_date := some gd } }
                              today fid)
                            { st.task with work_date := some gd } eid ev.titleOrEmpty
                            ev.updatedTs (some gd)
                            = mkUpdateEvent
                                (pureEnv { st with task := { st.task with work_date := some gd } }
                                  today fid)
                                eid (targetTitle { st.task with work_date := some gd })
                                (some gd) := by
                          unfold syncCompare
                          dsimp only
                          rw [if_neg (fun hand => hT (hand.1.trans ht2)), hc2,
                            if_neg Bool.false_ne_true, if_neg h1t, if_pos h2t]
                          rw [if_neg (fun hcon => hcon rfl)]
                        rw [hsc2, ht2]
                        rfl
                      refine ⟨Or.inr ⟨eid, targetTitle st.task, some gd, ?_⟩, ?_⟩
                      · rw [hst2, h2run]
                        rfl
                      · rw [hst2]
                        exact converge_after_event_update today fid
                          { st with task := { st.task with work_date := some gd } }
                          eid ev gd hm he hfind (by rw [ht2]; exact h2run) hgv (Or.inr rfl)
                  · rw [not_not] at hneq
                    have h1 : runTrace today fid st
                        = [Call.fetchEvent eid,
                           Call.updateEvent eid (targetTitle st.task) (some wd) true] := by
                      rw [hrt]
                      have hsc : syncCompare (pureEnv st today fid) st.task eid ev.titleOrEmpty
                          ev.updatedTs (some gd)
                          = mkUpdateEvent (pureEnv st today fid) eid (targetTitle st.task)
                              st.task.work_date := by
                        unfold syncCompare
                        rw [if_neg hx, hc, if_neg Bool.false_ne_true, if_neg h1t, if_pos h2t]
                        dsimp only
                        rw [if_neg (fun hcon => hcon hneq)]
                      rw [hsc, hwd]
                      rfl
                    exact converges_of_second_noop today fid st
                      (converge_after_event_update today fid st eid ev wd hm he hfind h1 hwv
                        (Or.inr hwd))
              · refine converges_of_first_noop today fid st ?_
                rw [hrt]
                have hsc : syncCompare (pureEnv st today fid) st.task eid ev.titleOrEmpty
                    ev.updatedTs gdOpt = ([], Outcome.normal) := by
                  unfold syncCompare
                  rw [if_neg hx, hc, if_neg Bool.false_ne_true, if_neg h1t, if_neg h2t]
                rw [hsc]
                rfl

/-- C5 counterexample: for a mirrored task whose event is strictly newer with
both title and date diverging, the first run only pulls the event's date into
the task, so the second run still issues a corrective action (pushing the
task's title to the event); only the third run is a no-op. -/
theorem sync_second_run_cex :
    mutations (runTrace dateA "f1" stC5)
      = [Call.updatePage "t5" (PageUpdate.setWorkDate dateB) true]
    ∧ mutations (runTrace dateA "f1" (stepState dateA "f1" stC5))
      = [Call.updateEvent "e1" "task5" (some dateB) true] := by
  decide

theorem sync_second_run_converges_witness :
    (mutations (runTrace dateA "f1" (stepState dateA "f1" stC5)) = []
      ∨ ∃ e t d, mutations (runTrace dateA "f1" (stepState dateA "f1" stC5))
          = [Call.updateEvent e t d true])
    ∧ mutations (runTrace dateA "f1" (stepState dateA "f1" (stepState dateA "f1" stC5))) = [] :=
  sync_second_run_converges stC5 dateA "f1" (by decide) (by decide)
    (fun w hw => by
      have h2 : some dateA = some w := hw
      injection h2 with h2
      rw [← h2]
      decide)
    (by decide)
